import Mathlib

/-!
Verification of the resilient authenticated acquisition layer:
shallow embeddings of the credential cache (`quotemedia-auth` helpers in
`SymbolInput.tsx`), the NASDAQ halt-feed parser (`app/api/halts/route.ts`),
the generic retry wrapper (`withRetry`), the endpoint probe loop
(`app/api/market-data-api/route.ts`) and the quote normalizer
(`app/api/tmx-quotemedia-proxy/route.ts`), together with theorems settling
the specification claims about them.
-/

namespace QMAuth

/-- JavaScript truthiness of an optional string value: `null`/`undefined`
and the empty string are falsy. -/
def strTruthy : Option String → Bool
  | none => false
  | some s => s ≠ ""

/-- JavaScript truthiness of an optional number (a timestamp here):
`null`/`undefined` and `0` are falsy. -/
def natTruthy : Option Nat → Bool
  | none => false
  | some n => n ≠ 0

/-- The module-level credential cache of `SymbolInput.tsx`:
`cachedSid`, `sidExpiration`, `cachedDataToolToken`, `tokenExpiration`.
Expirations are Unix-epoch milliseconds. -/
structure CacheState where
  cachedSid : Option String
  sidExpiration : Option Nat
  cachedDataToolToken : Option String
  tokenExpiration : Option Nat
deriving Repr, DecidableEq

/-- Outcome of one authentication HTTP round trip, as the code observes it:
`fail msg` models a thrown error (network failure or a non-ok response),
`ok v` models a parsed JSON body whose extracted credential field
(`data.sid` resp. `data.token`) is `v` (`none` when the field is absent). -/
inductive FetchOutcome where
  | fail (msg : String)
  | ok (value : Option String)
deriving Repr, DecidableEq

/-- SID time-to-live: `60 * 60 * 1000` ms (one hour) as in `getQuoteMediaSid`. -/
def SID_TTL_MS : Nat := 60 * 60 * 1000

/-- Token time-to-live: `30 * 60 * 1000` ms (thirty minutes) as in
`generateDataToolToken`. -/
def TOKEN_TTL_MS : Nat := 30 * 60 * 1000

/-- The cache-hit test of `getQuoteMediaSid`:
`cachedSid && sidExpiration && Date.now() < sidExpiration`. -/
def sidCacheHit (st : CacheState) (now : Nat) : Bool :=
  strTruthy st.cachedSid && natTruthy st.sidExpiration &&
    decide (now < st.sidExpiration.getD 0)

/-- The cache-hit test of `generateDataToolToken`:
`cachedDataToolToken && tokenExpiration && Date.now() < tokenExpiration`. -/
def tokenCacheHit (st : CacheState) (now : Nat) : Bool :=
  strTruthy st.cachedDataToolToken && natTruthy st.tokenExpiration &&
    decide (now < st.tokenExpiration.getD 0)

/-- `getQuoteMediaSid` from `SymbolInput.tsx`. Returns the result
(`Except.error` models a thrown error), the new cache state, and the number
of network requests performed. `auth` is the outcome the authentication
endpoint would produce if called. -/
def getQuoteMediaSid (st : CacheState) (now : Nat) (auth : FetchOutcome) :
    Except String String × CacheState × Nat :=
  if sidCacheHit st now then
    (Except.ok (st.cachedSid.getD ""), st, 0)
  else
    match auth with
    | .fail msg => (Except.error msg, st, 1)
    | .ok sid =>
      if strTruthy sid then
        let v := sid.getD ""
        (Except.ok v,
          { st with cachedSid := some v, sidExpiration := some (now + SID_TTL_MS) }, 1)
      else
        (Except.error "No session ID found in authentication response", st, 1)

/-- `generateDataToolToken` from `SymbolInput.tsx`: token-cache check first;
on a miss, obtain a SID via `getQuoteMediaSid` (with outcome `sidAuth`),
then perform the token request (outcome `tokenAuth`). -/
def generateDataToolToken (st : CacheState) (now : Nat)
    (sidAuth tokenAuth : FetchOutcome) :
    Except String String × CacheState × Nat :=
  if tokenCacheHit st now then
    (Except.ok (st.cachedDataToolToken.getD ""), st, 0)
  else
    match getQuoteMediaSid st now sidAuth with
    | (Except.error e, st1, n1) => (Except.error e, st1, n1)
    | (Except.ok _, st1, n1) =>
      match tokenAuth with
      | .fail msg => (Except.error msg, st1, n1 + 1)
      | .ok tok =>
        if strTruthy tok then
          let v := tok.getD ""
          (Except.ok v,
            { st1 with cachedDataToolToken := some v,
                       tokenExpiration := some (now + TOKEN_TTL_MS) }, n1 + 1)
        else
          (Except.error "No token found in response", st1, n1 + 1)

/-- `clearCachedSid` from `SymbolInput.tsx`: nulls only the SID fields. -/
def clearCachedSid (st : CacheState) : CacheState :=
  { st with cachedSid := none, sidExpiration := none }

/-- `clearCachedToken` from `SymbolInput.tsx`: nulls only the token fields. -/
def clearCachedToken (st : CacheState) : CacheState :=
  { st with cachedDataToolToken := none, tokenExpiration := none }

/-- One caller of `getQuoteMediaSid` split at its await points, for analysing
interleavings of concurrent callers: `start` is about to run the cache test;
`storing v` has completed the authentication fetch (which extracted SID `v`)
and is about to write the cache; `finished r` has returned `r`. -/
inductive Phase where
  | start
  | storing (sid : String)
  | finished (res : String)
deriving Repr, DecidableEq

/-- One step of a caller in phase `p` against the shared cache: returns the
caller's next phase, the cache afterwards, and how many network requests the
step performed. `outcome` is the SID that caller's authentication fetch
extracts (assumed present and non-empty). -/
def stepPhase (now : Nat) (outcome : String) (cache : CacheState) :
    Phase → Phase × CacheState × Nat
  | .start =>
    if sidCacheHit cache now then (.finished (cache.cachedSid.getD ""), cache, 0)
    else (.storing outcome, cache, 1)
  | .storing sid =>
    (.finished sid,
      { cache with cachedSid := some sid, sidExpiration := some (now + SID_TTL_MS) }, 0)
  | .finished r => (.finished r, cache, 0)

/-- Shared state of two concurrent `getQuoteMediaSid` callers `a` and `b`,
with the total number of authentication requests issued so far. -/
structure TwoCallers where
  cache : CacheState
  a : Phase
  b : Phase
  fetches : Nat
deriving Repr, DecidableEq

/-- Run the two callers under a schedule: `true` steps caller `a`,
`false` steps caller `b`. -/
def runSched (now : Nat) (outA outB : String) :
    List Bool → TwoCallers → TwoCallers
  | [], s => s
  | pick :: rest, s =>
    let s' :=
      if pick then
        let r := stepPhase now outA s.cache s.a
        { s with a := r.1, cache := r.2.1, fetches := s.fetches + r.2.2 }
      else
        let r := stepPhase now outB s.cache s.b
        { s with b := r.1, cache := r.2.1, fetches := s.fetches + r.2.2 }
    runSched now outA outB rest s'

end QMAuth

/-- Substring test on character lists: does `pat` occur contiguously? -/
def hasPrefixChars : List Char → List Char → Bool
  | [], _ => true
  | _ :: _, [] => false
  | p :: ps, c :: cs => p = c && hasPrefixChars ps cs

/-- JavaScript `String.prototype.includes`: case-sensitive substring test. -/
def containsChars (pat : List Char) : List Char → Bool
  | [] => hasPrefixChars pat []
  | c :: cs => hasPrefixChars pat (c :: cs) || containsChars pat cs

/-- `s.includes(pat)` on Lean strings. -/
def strContains (s pat : String) : Bool :=
  containsChars pat.toList s.toList

/-- `s.startsWith(pat)` on Lean strings. -/
def strStartsWith (s pat : String) : Bool :=
  hasPrefixChars pat.toList s.toList

/-- `s.trim()` on Lean strings: strip leading and trailing whitespace. -/
def strTrim (s : String) : String :=
  String.mk (((s.toList.dropWhile Char.isWhitespace).reverse.dropWhile
    Char.isWhitespace).reverse)

namespace Halts

/-- A `<td>` cell of a halt-table row as the parser observes it:
`text` is the cell's full text content (`$(cell).text()`), and `divs` gives,
for each descendant `<div>` in document order, the combined text of the
anchors inside it (`none` for a div with no `<a>` descendant). -/
structure Cell where
  text : String
  divs : List (Option String) := []
deriving Repr, DecidableEq

/-- A `<tr>` of the halt table: header-cell texts (`<th>`) and data cells
(`<td>`). -/
structure TRow where
  ths : List String := []
  tds : List Cell := []
deriving Repr, DecidableEq

/-- Canonical halt record (interface `HaltData` in `app/api/halts/route.ts`). -/
structure HaltData where
  symbol : String
  haltDate : String
  haltTime : String
  issueName : String
  market : String
  reasonCodes : String
  pauseThresholdPrice : String
  resumptionDate : String
  resumptionQuoteTime : String
deriving Repr, DecidableEq

/-- JavaScript `x || "N/A"` on an optional string: `undefined` and the empty
string fall back to `"N/A"`. -/
def jsOrNA : Option String → String
  | none => "N/A"
  | some s => if s = "" then "N/A" else s

/-- JavaScript truthiness of `rowData[k]`. -/
def jsTruthyS : Option String → Bool
  | none => false
  | some s => s ≠ ""

/-- Value the parser stores for a reason-codes cell: the `", "`-join of the
non-empty trimmed anchor texts of the cell's divs, falling back to the raw
cell value when there are none. -/
def reasonValue (cell : Cell) (cellValue : String) : String :=
  let reasons := cell.divs.filterMap fun a? =>
    a?.bind fun t => if strTrim t = "" then none else some (strTrim t)
  if reasons.isEmpty then cellValue else String.intercalate ", " reasons

/-- Functional update of the `rowData` object: `rowData[k] = v`. -/
def rdUpdate (f : String → Option String) (k v : String) : String → Option String :=
  fun x => if x = k then some v else f x

/-- The `cells.each` loop of `parseNasdaqTable`: walks the data cells with
their column index `j`, building the `rowData` object and the `isToday`
flag. A cell whose column has no header, or an empty header name, is
skipped; a `"Halt Date"` cell equal to `today` sets `isToday`; the cell at
column index `5` gets the anchor-extracted reason value. -/
def rowScan (headers : List String) (today : String) :
    List Cell → Nat → (String → Option String) → Bool →
      (String → Option String) × Bool
  | [], _, acc, isT => (acc, isT)
  | cell :: rest, j, acc, isT =>
    match headers.get? j with
    | none => rowScan headers today rest (j + 1) acc isT
    | some h =>
      if h = "" then rowScan headers today rest (j + 1) acc isT
      else
        let cellValue := strTrim cell.text
        let isT' := isT || (h = "Halt Date" && cellValue = today)
        let v := if j = 5 then reasonValue cell cellValue else cellValue
        rowScan headers today rest (j + 1) (rdUpdate acc h v) isT'

/-- The `rowData` object computed for a data row. -/
def rowField (headers : List String) (today : String) (r : TRow) (k : String) :
    Option String :=
  (rowScan headers today r.tds 0 (fun _ => none) false).1 k

/-- The halt record built from a retained row (`data.push({...})`). -/
def mkHalt (headers : List String) (today : String) (r : TRow) : HaltData :=
  { symbol := jsOrNA (rowField headers today r "Issue Symbol")
    haltDate := jsOrNA (rowField headers today r "Halt Date")
    haltTime := jsOrNA (rowField headers today r "Halt Time")
    issueName := jsOrNA (rowField headers today r "Issue Name")
    market := jsOrNA (rowField headers today r "Market")
    reasonCodes := jsOrNA (rowField headers today r "Reason Codes")
    pauseThresholdPrice := jsOrNA (rowField headers today r "Pause Threshold Price")
    resumptionDate := jsOrNA (rowField headers today r "Resumption Date")
    resumptionQuoteTime := jsOrNA (rowField headers today r "Resumption Quote Time") }

/-- Processing of one data row: build `rowData` and `isToday`, then retain
the row only when `isToday && rowData["Issue Symbol"]` is truthy. -/
def parseDataRow (headers : List String) (today : String) (r : TRow) :
    Option HaltData :=
  let scanned := rowScan headers today r.tds 0 (fun _ => none) false
  if scanned.2 && jsTruthyS (scanned.1 "Issue Symbol") then
    some (mkHalt headers today r)
  else none

/-- `parseNasdaqTable` from `app/api/halts/route.ts`, over an
already-located table given as its list of `<tr>` rows (`none` models "no
table found in response"). Header names are the trimmed `<th>` texts of the
first row; subsequent rows with no `<td>` are skipped. `today` is the
caller-local date string the route computes. -/
def parseNasdaqTable : Option (List TRow) → String → List HaltData
  | none, _ => []
  | some [], _ => []
  | some (hd :: rest), today =>
    let headers := hd.ths.map strTrim
    rest.filterMap fun r =>
      if r.tds.isEmpty then none else parseDataRow headers today r

/-- Zero-padding used for the day and month: `padStart(2, '0')`. -/
def pad2 (n : Nat) : String :=
  if n < 10 then "0" ++ toString n else toString n

/-- The route's `todayFormatted` value: zero-padded `MM/DD/YYYY` built from
the caller-local month (1-based), day and full year. -/
def todayFormatted (month1 day year : Nat) : String :=
  pad2 month1 ++ "/" ++ pad2 day ++ "/" ++ toString year

/-- Declarative retention test used to characterise the parser: some data
cell sits in a column headed `"Halt Date"` and its trimmed text equals
`today` exactly. -/
def hasTodayHaltDate (headers : List String) (today : String)
    (tds : List Cell) : Bool :=
  tds.enum.any fun p =>
    headers.get? p.1 = some "Halt Date" && strTrim p.2.text = today

end Halts

namespace Retry

/-- A thrown JavaScript `Error`, as the retry wrapper inspects it. -/
structure JsError where
  name : String
  message : String
deriving Repr, DecidableEq

/-- The timeout classification of `withRetry`
(`app/api/symbol-data/route.ts`): the error message contains `'aborted'`,
`'timeout'` or `'ETIMEDOUT'`. -/
def isTimeoutMsg (msg : String) : Bool :=
  strContains msg "aborted" || strContains msg "timeout" ||
    strContains msg "ETIMEDOUT"

/-- The attempt loop of `withRetry`: `outcome i` is what attempt `i`
(1-based) produces — `Except.ok` for a fulfilled action, `Except.error` for
a rejection or a timeout of that attempt. Returns the overall result
(`Except.error` models the final `throw lastError`), the number of attempts
performed, and the list of back-off sleeps (`attempt * 1000` ms) taken
between consecutive attempts, in order. -/
def withRetryGo {α : Type} (outcome : Nat → Except JsError α) :
    Nat → Nat → Option JsError → Except JsError α × Nat × List Nat
  | 0, _, lastError =>
    (Except.error (lastError.getD ⟨"Error", "failed after all attempts"⟩), 0, [])
  | remaining + 1, attempt, _ =>
    match outcome attempt with
    | Except.ok a => (Except.ok a, 1, [])
    | Except.error e =>
      if remaining = 0 then (Except.error e, 1, [])
      else
        let r := withRetryGo outcome remaining (attempt + 1) (some e)
        (r.1, r.2.1 + 1, attempt * 1000 :: r.2.2)

/-- `withRetry` with a given `maxRetries` (default 3 in the source),
starting at attempt 1 with no previous error. -/
def withRetry {α : Type} (outcome : Nat → Except JsError α)
    (maxRetries : Nat) : Except JsError α × Nat × List Nat :=
  withRetryGo outcome maxRetries 1 none

end Retry

namespace Probe

/-- Outcome of issuing one endpoint candidate: the `fetch` either threw, or
produced a response with its `ok` flag and body text. -/
inductive FetchResult where
  | threw
  | resp (ok : Bool) (body : String)
deriving Repr, DecidableEq

/-- The `isMarketData` content test of `app/api/market-data-api/route.ts`:
the body contains at least one of nine quoted field-name substrings. -/
def isMarketData (s : String) : Bool :=
  strContains s "\"price\"" || strContains s "\"last\"" ||
    strContains s "\"bid\"" || strContains s "\"ask\"" ||
    strContains s "\"volume\"" || strContains s "\"change\"" ||
    strContains s "\"open\"" || strContains s "\"high\"" ||
    strContains s "\"low\""

/-- The full acceptance test of the endpoint loop:
`isMarketData && (responseText.startsWith('\x7b') || responseText.startsWith('['))`. -/
def acceptBody (s : String) : Bool :=
  isMarketData s && (strStartsWith s "\x7b" || strStartsWith s "[")

/-- Whether a candidate's outcome is accepted by the loop: the response must
be `ok` and its body must pass `acceptBody`. -/
def candidateAccepted : FetchResult → Bool
  | .threw => false
  | .resp ok body => ok && acceptBody body

/-- The sequential endpoint loop of the route's `GET` handler: issue each
candidate in declared order, returning the body of the first accepted one
(`none` when no candidate is accepted) together with the number of
candidates actually issued. -/
def probeGo : List FetchResult → Option String × Nat
  | [] => (none, 0)
  | o :: rest =>
    if candidateAccepted o then
      (match o with
       | .resp _ body => (some body, 1)
       | .threw => (none, 1))
    else
      let r := probeGo rest
      (r.1, r.2 + 1)

/-- The accept predicate exactly as the claim words it: the body starts with
`'\x7b'` or `'['` and contains one of the seven unquoted field-name
substrings `price, last, bid, ask, volume, change, quote`. (Stated for
comparison with `acceptBody`, the predicate the code implements.) -/
def claimedAccept (s : String) : Bool :=
  (strStartsWith s "\x7b" || strStartsWith s "[") &&
    (strContains s "price" || strContains s "last" || strContains s "bid" ||
      strContains s "ask" || strContains s "volume" ||
      strContains s "change" || strContains s "quote")

end Probe

namespace TMXProxy

/-- JavaScript `a || b` on optional numbers: `undefined`/`null` and `0` are
falsy and fall through to `b`. -/
def jsOrQ : Option ℚ → Option ℚ → Option ℚ
  | some x, y => if x = 0 then y else some x
  | none, y => y

/-- Final numeric default: `(... ) || 0` followed by `parseFloat`, which is
the identity on a number. -/
def jsGetQ (o : Option ℚ) : ℚ := o.getD 0

/-- JavaScript `a || b` on optional strings: `undefined`/`null` and the
empty string fall through to `b`. -/
def jsOrS : Option String → Option String → Option String
  | some x, y => if x = "" then y else some x
  | none, y => y

/-- Final string default: `(...) || d`. -/
def jsGetS (o : Option String) (d : String) : String :=
  match o with
  | some x => if x = "" then d else x
  | none => d

/-- `parseInt` applied to a number: truncation toward zero (the number is
stringified and its integer part parsed). -/
def ratTrunc (q : ℚ) : Int :=
  if q < 0 then -((-q).floor) else q.floor

/-- `parseInt((...) || 0)` on an optional-number chain. -/
def jsIntOf (o : Option ℚ) : Int := ratTrunc (jsGetQ o)

/-- The `pricedata` sub-object of an upstream stock record; every field the
mapping reads, absent by default. -/
structure PriceData where
  last : Option ℚ := none
  change : Option ℚ := none
  changepercent : Option ℚ := none
  tick : Option ℚ := none
  openQ : Option ℚ := none
  high : Option ℚ := none
  low : Option ℚ := none
  prevclose : Option ℚ := none
  bid : Option ℚ := none
  ask : Option ℚ := none
  bidsize : Option ℚ := none
  asksize : Option ℚ := none
  rawbidsize : Option ℚ := none
  rawasksize : Option ℚ := none
  tradevolume : Option ℚ := none
  sharevolume : Option ℚ := none
  vwap : Option ℚ := none
  vwapvolume : Option ℚ := none
  lasttradedatetime : Option String := none
deriving Repr, DecidableEq

/-- The `key` sub-object: `symbol`, `exchange`, `exLgName`. -/
structure KeyData where
  symbol : Option String := none
  exchange : Option String := none
  exLgName : Option String := none
deriving Repr, DecidableEq

/-- The `equityinfo` sub-object: `longname`, `shortname`. -/
structure EquityInfo where
  longname : Option String := none
  shortname : Option String := none
deriving Repr, DecidableEq

/-- A `week52high`/`week52low` object inside `fundamental`, whose `content`
field holds the number. -/
structure W52 where
  content : Option ℚ := none
deriving Repr, DecidableEq

/-- The `fundamental` sub-object; `peratioQ`/`pbratioQ` model the source
fields `peratio`/`pbratio`. -/
structure Fundamental where
  marketcap : Option ℚ := none
  eps : Option ℚ := none
  peratioQ : Option ℚ := none
  pbratioQ : Option ℚ := none
  week52high : Option W52 := none
  week52low : Option W52 := none
deriving Repr, DecidableEq

/-- An upstream stock record, with every top-level field the
`transformedData.quotes` mapping reads. `openQ` models the source field
`open` (a Lean keyword); `peratioQ`/`pbratioQ` model `peratio`/`pbratio`;
`changePercentC` models the camel-cased `changePercent`, distinct from
`changepercent`. -/
structure Stock where
  key : Option KeyData := none
  pricedata : Option PriceData := none
  equityinfo : Option EquityInfo := none
  fundamental : Option Fundamental := none
  symbol : Option String := none
  last : Option ℚ := none
  price : Option ℚ := none
  change : Option ℚ := none
  changepercent : Option ℚ := none
  changePercentC : Option ℚ := none
  openQ : Option ℚ := none
  high : Option ℚ := none
  low : Option ℚ := none
  prevclose : Option ℚ := none
  previousClose : Option ℚ := none
  bid : Option ℚ := none
  ask : Option ℚ := none
  bidsize : Option ℚ := none
  asksize : Option ℚ := none
  rawbidsize : Option ℚ := none
  rawasksize : Option ℚ := none
  tradevolume : Option ℚ := none
  sharevolume : Option ℚ := none
  volume : Option ℚ := none
  vwap : Option ℚ := none
  vwapvolume : Option ℚ := none
  marketcap : Option ℚ := none
  eps : Option ℚ := none
  peratioQ : Option ℚ := none
  pbratioQ : Option ℚ := none
  week52high : Option ℚ := none
  week52low : Option ℚ := none
  exchange : Option String := none
  exchangeLongName : Option String := none
  companyname : Option String := none
  longname : Option String := none
  shortname : Option String := none
  datatype : Option String := none
  symbolstring : Option String := none
  lasttradedatetime : Option String := none
  entitlement : Option String := none
deriving Repr, DecidableEq

/-- The canonical quote record built by the `transformedData.quotes`
mapping. `openQ`/`peRatioVal`/`pbRatioVal` model the output fields
`open`/`peRatio`/`pbRatio`. -/
structure CanonicalQuote where
  symbol : String
  price : ℚ
  change : ℚ
  changePercent : ℚ
  tick : Int
  openQ : ℚ
  high : ℚ
  low : ℚ
  previousClose : ℚ
  bid : ℚ
  ask : ℚ
  bidSize : Int
  askSize : Int
  rawBidSize : Int
  rawAskSize : Int
  tradevolume : Int
  sharevolume : Int
  volume : Int
  vwap : ℚ
  vwapvolume : Int
  marketCap : ℚ
  eps : Option ℚ
  peRatioVal : Option ℚ
  pbRatioVal : Option ℚ
  week52High : ℚ
  week52Low : ℚ
  exchange : String
  exchangeLongName : String
  companyName : String
  shortName : String
  datatype : String
  symbolString : Option String
  lastTradeTime : String
  entitlement : String
deriving DecidableEq

/-- Optional-chaining access `stock.pricedata?.f`. -/
def pdQ (s : Stock) (f : PriceData → Option ℚ) : Option ℚ :=
  s.pricedata.bind f

/-- The per-stock body of the `transformedData.quotes` mapping in the GET
handler of `app/api/tmx-quotemedia-proxy/route.ts`. `nowIso` is
`new Date().toISOString()`. -/
def mapStock (nowIso : String) (s : Stock) : CanonicalQuote :=
  { symbol := jsGetS (jsOrS (s.key.bind KeyData.symbol) s.symbol) "N/A"
    price := jsGetQ (jsOrQ (jsOrQ (pdQ s PriceData.last) s.last) s.price)
    change := jsGetQ (jsOrQ (pdQ s PriceData.change) s.change)
    changePercent := jsGetQ (jsOrQ (jsOrQ (pdQ s PriceData.changepercent)
      s.changepercent) s.changePercentC)
    tick := jsIntOf (pdQ s PriceData.tick)
    openQ := jsGetQ (jsOrQ (pdQ s PriceData.openQ) s.openQ)
    high := jsGetQ (jsOrQ (pdQ s PriceData.high) s.high)
    low := jsGetQ (jsOrQ (pdQ s PriceData.low) s.low)
    previousClose := jsGetQ (jsOrQ (jsOrQ (pdQ s PriceData.prevclose)
      s.prevclose) s.previousClose)
    bid := jsGetQ (jsOrQ (pdQ s PriceData.bid) s.bid)
    ask := jsGetQ (jsOrQ (pdQ s PriceData.ask) s.ask)
    bidSize := jsIntOf (jsOrQ (pdQ s PriceData.bidsize) s.bidsize)
    askSize := jsIntOf (jsOrQ (pdQ s PriceData.asksize) s.asksize)
    rawBidSize := jsIntOf (jsOrQ (pdQ s PriceData.rawbidsize) s.rawbidsize)
    rawAskSize := jsIntOf (jsOrQ (pdQ s PriceData.rawasksize) s.rawasksize)
    tradevolume := jsIntOf (jsOrQ (pdQ s PriceData.tradevolume) s.tradevolume)
    sharevolume := jsIntOf (jsOrQ (jsOrQ (pdQ s PriceData.sharevolume)
      s.sharevolume) s.volume)
    volume := jsIntOf (jsOrQ (jsOrQ (pdQ s PriceData.sharevolume)
      s.sharevolume) s.volume)
    vwap := jsGetQ (jsOrQ (pdQ s PriceData.vwap) s.vwap)
    vwapvolume := jsIntOf (jsOrQ (pdQ s PriceData.vwapvolume) s.vwapvolume)
    marketCap := jsGetQ (jsOrQ s.marketcap
      (s.fundamental.bind Fundamental.marketcap))
    eps := jsOrQ s.eps (s.fundamental.bind Fundamental.eps)
    peRatioVal := jsOrQ s.peratioQ (s.fundamental.bind Fundamental.peratioQ)
    pbRatioVal := jsOrQ s.pbratioQ (s.fundamental.bind Fundamental.pbratioQ)
    week52High := jsGetQ (jsOrQ s.week52high
      (s.fundamental.bind fun f => f.week52high.bind W52.content))
    week52Low := jsGetQ (jsOrQ s.week52low
      (s.fundamental.bind fun f => f.week52low.bind W52.content))
    exchange := jsGetS (jsOrS s.exchange (s.key.bind KeyData.exchange)) "US"
    exchangeLongName := jsGetS (jsOrS s.exchangeLongName
      (s.key.bind KeyData.exLgName)) "US Exchange"
    companyName := jsGetS (jsOrS (jsOrS (jsOrS
      (s.equityinfo.bind EquityInfo.longname) s.companyname) s.longname)
      (s.equityinfo.bind EquityInfo.shortname)) "N/A"
    shortName := jsGetS (jsOrS (jsOrS
      (s.equityinfo.bind EquityInfo.shortname) s.shortname)
      (s.equityinfo.bind EquityInfo.longname)) "N/A"
    datatype := jsGetS s.datatype "equity"
    symbolString := jsOrS (jsOrS (s.key.bind KeyData.symbol) s.symbolstring)
      s.symbol
    lastTradeTime := jsGetS (jsOrS (s.pricedata.bind PriceData.lasttradedatetime)
      s.lasttradedatetime) nowIso
    entitlement := jsGetS s.entitlement "RT" }

/-- The `results` object of the parsed QuoteMedia payload: `quote` and
`stock` arrays (`none` when absent or not an array). -/
structure ResultsObj where
  quote : Option (List Stock) := none
  stockArr : Option (List Stock) := none
deriving Repr, DecidableEq

/-- Shape of the parsed QuoteMedia JSON body as the handler inspects it:
its `results` object, and `arrayItems` is `some` exactly when the payload
itself is an array. -/
structure ProxyJson where
  results : Option ResultsObj := none
  arrayItems : Option (List Stock) := none
deriving Repr, DecidableEq

/-- The `marketStats` extraction: `results.quote`, else `results.stock`,
else the payload itself when it is an array, else the empty list. -/
def extractMarketStats (j : ProxyJson) : List Stock :=
  match j.results with
  | some r =>
    match r.quote with
    | some qs => qs
    | none =>
      match r.stockArr with
      | some ss => ss
      | none => (j.arrayItems.getD [])
  | none => (j.arrayItems.getD [])

/-- The `transformedData.quotes` array: `marketStats.map(stock => ({...}))`. -/
def transformQuotes (nowIso : String) (j : ProxyJson) : List CanonicalQuote :=
  (extractMarketStats j).map (mapStock nowIso)

/-- Opaque payload of one element of an embedded structured array; the
parser passes these through untouched. -/
abbrev EmbVal := String

/-- Shape of a `JSON.parse`d embedded literal as `parseTMXMarketData`
inspects it: an array field is `some` exactly when present and an array. -/
structure JsObjShape where
  quotes : Option (List EmbVal) := none
  dataArr : Option (List EmbVal) := none
  results : Option (List EmbVal) := none
deriving Repr, DecidableEq

/-- A parsed JavaScript value: an array, an object (with the three array
fields the parser looks at), or a primitive/null (falsy or not of type
`object`). -/
inductive JsVal where
  | array (items : List EmbVal)
  | object (o : JsObjShape)
  | primOrNull
deriving Repr, DecidableEq

/-- The structured-data checks applied to a parsed value: an array is
returned as is; for an object, `quotes`, then `data`, then (in the
embedded-pattern step only) `results`. -/
def embeddedArrays (withResults : Bool) : JsVal → Option (List EmbVal)
  | .array l => some l
  | .object o =>
    match o.quotes with
    | some l => some l
    | none =>
      match o.dataArr with
      | some l => some l
      | none => if withResults then o.results else none
  | .primOrNull => none

/-- Case-sensitive literal match at the head of the input; returns the
remaining characters. -/
def matchLitChars : List Char → List Char → Option (List Char)
  | [], cs => some cs
  | p :: ps, c :: cs => if c = p then matchLitChars ps cs else none
  | _ :: _, [] => none

/-- Greedy `\s*`. -/
def wsStar (cs : List Char) : List Char := cs.dropWhile Char.isWhitespace

/-- Greedy `\s+` (at least one whitespace character). -/
def wsPlus : List Char → Option (List Char)
  | c :: cs => if c.isWhitespace then some (wsStar cs) else none
  | [] => none

/-- Lazy body of `\x7b[\s\S]*?\x7d;`: the characters before the first
`"\x7d;"` occurrence. -/
def lazyBodyCS : List Char → Option (List Char)
  | [] => none
  | '\x7d' :: ';' :: _ => some []
  | c :: rest => (lazyBodyCS rest).map (c :: ·)

/-- Lazy body of `\[[\s\S]*?\]`: the characters before the first `']'`. -/
def lazyBodyBr : List Char → Option (List Char)
  | [] => none
  | ']' :: _ => some []
  | c :: rest => (lazyBodyBr rest).map (c :: ·)

/-- The captured group `(\x7b[\s\S]*?\x7d)` of the `...\x7d;` patterns, at
the current position. -/
def braceCaptureAt : List Char → Option String
  | '\x7b' :: rest =>
    (lazyBodyCS rest).map fun body => String.mk ('\x7b' :: body ++ ['\x7d'])
  | _ => none

/-- The captured group `(\[[\s\S]*?\])`, at the current position. -/
def bracketCaptureAt : List Char → Option String
  | '[' :: rest =>
    (lazyBodyBr rest).map fun body => String.mk ('[' :: body ++ [']'])
  | _ => none

/-- Pattern `var\s+data\s*=\s*(\x7b[\s\S]*?\x7d);` anchored at the current
position, returning the captured object literal. -/
def matchP1At (cs : List Char) : Option String :=
  (matchLitChars "var".toList cs).bind fun c1 =>
  (wsPlus c1).bind fun c2 =>
  (matchLitChars "data".toList c2).bind fun c3 =>
  (matchLitChars "=".toList (wsStar c3)).bind fun c4 =>
  braceCaptureAt (wsStar c4)

/-- Pattern `window\.marketData\s*=\s*(\x7b[\s\S]*?\x7d);` anchored at the
current position. -/
def matchP2At (cs : List Char) : Option String :=
  (matchLitChars "window.marketData".toList cs).bind fun c1 =>
  (matchLitChars "=".toList (wsStar c1)).bind fun c2 =>
  braceCaptureAt (wsStar c2)

/-- Pattern `"quotes":\s*(\[[\s\S]*?\])` anchored at the current position. -/
def matchP3At (cs : List Char) : Option String :=
  (matchLitChars "\"quotes\":".toList cs).bind fun c1 =>
  bracketCaptureAt (wsStar c1)

/-- Pattern `marketMoversData\s*=\s*(\x7b[\s\S]*?\x7d);` anchored at the
current position. -/
def matchP4At (cs : List Char) : Option String :=
  (matchLitChars "marketMoversData".toList cs).bind fun c1 =>
  (matchLitChars "=".toList (wsStar c1)).bind fun c2 =>
  braceCaptureAt (wsStar c2)

/-- `String.prototype.match` with a non-global regex: the leftmost match. -/
def firstMatch (m : List Char → Option String) : List Char → Option String
  | [] => none
  | c :: rest =>
    match m (c :: rest) with
    | some r => some r
    | none => firstMatch m rest

/-- The ordered `jsDataPatterns` array of `parseTMXMarketData`. -/
def jsDataPatterns : List (List Char → Option String) :=
  [matchP1At, matchP2At, matchP3At, matchP4At]

/-- The embedded-JavaScript loop of `parseTMXMarketData`: for each pattern
in order, take its first match, `JSON.parse` it (`jsonParse` models the
runtime primitive, `none` = parse throws) and return the first structured
array found; a pattern whose parse fails or yields no array falls through
to the next. -/
def tryPatterns (jsonParse : String → Option JsVal) (cs : List Char) :
    List (List Char → Option String) → Option (List EmbVal)
  | [] => none
  | p :: ps =>
    match firstMatch p cs with
    | none => tryPatterns jsonParse cs ps
    | some captured =>
      match jsonParse captured with
      | none => tryPatterns jsonParse cs ps
      | some v =>
        match embeddedArrays true v with
        | some l => some l
        | none => tryPatterns jsonParse cs ps

/-- The greedy fallback regex `\x7b[\s\S]*\x7d`: from the first `'\x7b'` to
the last `'\x7d'`, when the latter comes after the former. -/
def braceMatch (cs : List Char) : Option String := do
  let i ← cs.findIdx? (· = '\x7b')
  let jr ← cs.reverse.findIdx? (· = '\x7d')
  let j := cs.length - 1 - jr
  if i < j then some (String.mk ((cs.drop i).take (j - i + 1))) else none

/-- The embedded-JSON fallback step: parse the greedy brace match and look
for an array, `quotes` or `data` (but not `results`) inside it. -/
def braceStep (jsonParse : String → Option JsVal) (cs : List Char) :
    Option (List EmbVal) :=
  match braceMatch cs with
  | none => none
  | some m =>
    match jsonParse m with
    | none => none
    | some v => embeddedArrays false v

/-- Case-insensitive literal match (the `/i` flag); returns the consumed
input characters (preserving their original case) and the rest. -/
def ciLitC : List Char → List Char → Option (List Char × List Char)
  | [], cs => some ([], cs)
  | p :: ps, c :: cs =>
    if c.toLower = p.toLower then
      (ciLitC ps cs).map fun q => (c :: q.1, q.2)
    else none
  | _ :: _, [] => none

/-- `[^>]*>`: the characters up to the first `'>'`, and the rest after it. -/
def uptoGt : List Char → Option (List Char × List Char)
  | [] => none
  | c :: rest =>
    if c = '>' then some ([], rest)
    else (uptoGt rest).map fun p => (c :: p.1, p.2)

/-- Lazy `[\s\S]*?` up to the first case-insensitive occurrence of `close`:
returns the body, the matched closing text, and the rest. -/
def lazyToClose (close : List Char) : List Char → Option (List Char × List Char × List Char)
  | [] => none
  | c :: rest =>
    match ciLitC close (c :: rest) with
    | some q => some ([], q.1, q.2)
    | none =>
      (lazyToClose close rest).map fun p => (c :: p.1, p.2.1, p.2.2)

/-- One match of `<tag[^>]*>[\s\S]*?<\/tag>` (case-insensitive) anchored at
the current position: the full matched text and the rest of the input. -/
def matchTagAt (tag : List Char) (cs : List Char) :
    Option (List Char × List Char) :=
  (ciLitC ('<' :: tag) cs).bind fun q1 =>
  (uptoGt q1.2).bind fun q2 =>
  (lazyToClose ('<' :: '/' :: (tag ++ ['>'])) q2.2).map fun p =>
    (q1.1 ++ q2.1 ++ '>' :: (p.1 ++ p.2.1), p.2.2)

/-- All matches of the global tag regex, scanning left to right and
resuming after each match. The fuel argument bounds the scan by the input
length (every step consumes at least one character). -/
def allTagMatchesGo (tag : List Char) : Nat → List Char → List (List Char)
  | 0, _ => []
  | _, [] => []
  | fuel + 1, c :: rest =>
    match matchTagAt tag (c :: rest) with
    | some (m, r) => m :: allTagMatchesGo tag fuel r
    | none => allTagMatchesGo tag fuel rest

/-- `htmlText.match(/<tag[^>]*>[\s\S]*?<\/tag>/gi) || []`. -/
def allTagMatches (tag : List Char) (cs : List Char) : List (List Char) :=
  allTagMatchesGo tag cs.length cs

/-- `replace(/<[^>]*>/g, '')`: remove every complete `<...>` run; a `'<'`
with no later `'>'` is kept. -/
def stripTagsGo : Nat → List Char → List Char
  | 0, cs => cs
  | _, [] => []
  | fuel + 1, c :: rest =>
    if c = '<' then
      match uptoGt rest with
      | some p => stripTagsGo fuel p.2
      | none => c :: stripTagsGo fuel rest
    else c :: stripTagsGo fuel rest

/-- Tag stripping as a string operation. -/
def stripTags (cs : List Char) : String := String.mk (stripTagsGo cs.length cs)

/-- Numeric value of a digit run. -/
def digitsVal (ds : List Char) : Nat :=
  ds.foldl (fun acc d => acc * 10 + (d.toNat - 48)) 0

/-- JavaScript `parseFloat` restricted to plain decimal literals: optional
sign, integer digits, optional fractional digits, ignoring any trailing
garbage; `none` models `NaN`. (Exponent notation and `Infinity` are not
modelled; the scraped cells never carry them.) -/
def jsParseFloat (s : String) : Option ℚ :=
  let cs := s.toList.dropWhile Char.isWhitespace
  let neg : Bool := match cs with | '-' :: _ => true | _ => false
  let cs1 := match cs with | '-' :: r => r | '+' :: r => r | _ => cs
  let intDs := cs1.takeWhile Char.isDigit
  let rest := cs1.dropWhile Char.isDigit
  let fracDs := match rest with | '.' :: r => r.takeWhile Char.isDigit | _ => []
  if intDs.isEmpty && fracDs.isEmpty then none
  else
    let den := 10 ^ fracDs.length
    let numAbs := digitsVal intDs * den + digitsVal fracDs
    some (mkRat (if neg then -(numAbs : Int) else (numAbs : Int)) den)

/-- `parseFloat(x) || 0`. -/
def jsFloatOr0 (s : String) : ℚ := (jsParseFloat s).getD 0

/-- One record produced by `parseTMXMarketData`: a passed-through element
of an embedded structured array, a scraped table quote, or the diagnostic
placeholder (`symbol: 'DEBUG'`, `rawHtmlLength`, `debug` note). -/
inductive TmxRecord where
  | embedded (v : EmbVal)
  | quote (symbol : String) (last change : ℚ) (source timestamp : String)
  | debugInfo (symbol : String) (last change : ℚ) (source timestamp : String)
      (rawHtmlLength : Nat) (note : String)
deriving DecidableEq

/-- The `source` field a record carries (`none` for passed-through embedded
values, whose shape the parser does not touch). -/
def TmxRecord.sourceTag : TmxRecord → Option String
  | .embedded _ => none
  | .quote _ _ _ src _ => some src
  | .debugInfo _ _ _ src _ _ _ => some src

/-- The HTML-table fallback of `parseTMXMarketData`: every `<tr>` match
with at least three `<td>` cells and truthy stripped symbol and price cells
yields a quote record tagged `source: 'TMX PowerStream'`. `nowIso` is
`new Date().toISOString()`. -/
def tableQuotes (nowIso : String) (cs : List Char) : List TmxRecord :=
  let rows := allTagMatches "tr".toList cs
  rows.filterMap fun row =>
    let cells := allTagMatches "td".toList row
    if cells.length ≥ 3 then
      let symbol := strTrim (stripTags (cells.getD 0 []))
      let price := strTrim (stripTags (cells.getD 1 []))
      let changeV := strTrim (stripTags (cells.getD 2 []))
      if symbol ≠ "" && price ≠ "" then
        some (.quote symbol (jsFloatOr0 price) (jsFloatOr0 changeV)
          "TMX PowerStream" nowIso)
      else none
    else none

/-- `parseTMXMarketData` from `app/api/tmx-quotemedia-proxy/route.ts`:
embedded-JavaScript patterns first, then the greedy embedded-JSON match,
then the HTML-table fallback, and finally the one-element diagnostic
placeholder when nothing was parseable. The function is total: the
source's outer catch-all (which returns an `ERROR` placeholder) is
unreachable in this pure embedding. -/
def parseTMXMarketData (jsonParse : String → Option JsVal) (nowIso : String)
    (htmlText : String) : List TmxRecord :=
  let cs := htmlText.toList
  match tryPatterns jsonParse cs jsDataPatterns with
  | some l => l.map TmxRecord.embedded
  | none =>
    match braceStep jsonParse cs with
    | some l => l.map TmxRecord.embedded
    | none =>
      let quotes := tableQuotes nowIso cs
      if quotes.isEmpty then
        [.debugInfo "DEBUG" 0 0 "TMX PowerStream" nowIso htmlText.length
          "No parseable market data found in HTML response"]
      else quotes

/-- A stock record all of whose numeric source fields (nested `pricedata`
and `fundamental` objects included) are absent upstream. -/
def numericSourcesAbsent (s : Stock) : Prop :=
  s.pricedata = none ∧ s.fundamental = none ∧ s.last = none ∧ s.price = none ∧
  s.change = none ∧ s.changepercent = none ∧ s.changePercentC = none ∧
  s.openQ = none ∧ s.high = none ∧ s.low = none ∧ s.prevclose = none ∧
  s.previousClose = none ∧ s.bid = none ∧ s.ask = none ∧ s.bidsize = none ∧
  s.asksize = none ∧ s.rawbidsize = none ∧ s.rawasksize = none ∧
  s.tradevolume = none ∧ s.sharevolume = none ∧ s.volume = none ∧
  s.vwap = none ∧ s.vwapvolume = none ∧ s.marketcap = none ∧ s.eps = none ∧
  s.peratioQ = none ∧ s.pbratioQ = none ∧ s.week52high = none ∧
  s.week52low = none

end TMXProxy

namespace QMAuth

/-- C1: for both credential kinds, a `get` while a cached value exists and
the current time is strictly before its stored expiration returns that
identical cached value, leaves the cache unchanged and performs no network
request; on a cache miss the refreshed value is stored with
`expiresAt = now + TTL`, with a 60-minute TTL for the SID and a 30-minute
TTL for the datatool token. -/
theorem sessionTokenCache_ttl
    (st1 st2 st3 st4 st5 : CacheState) (now : Nat)
    (auth sidA tokA : FetchOutcome)
    (v1 v2 v3 v4 v5 v6 : String) (e1 e2 : Nat)
    (h11 : st1.cachedSid = some v1) (h12 : v1 ≠ "")
    (h13 : st1.sidExpiration = some e1) (h14 : now < e1)
    (h21 : st2.cachedDataToolToken = some v2) (h22 : v2 ≠ "")
    (h23 : st2.tokenExpiration = some e2) (h24 : now < e2)
    (h31 : sidCacheHit st3 now = false) (h32 : v3 ≠ "")
    (h41 : tokenCacheHit st4 now = false)
    (h42 : sidCacheHit st4 now = true) (h43 : v4 ≠ "")
    (h51 : tokenCacheHit st5 now = false)
    (h52 : sidCacheHit st5 now = false) (h53 : v5 ≠ "") (h54 : v6 ≠ "") :
    getQuoteMediaSid st1 now auth = (Except.ok v1, st1, 0) ∧
    generateDataToolToken st2 now sidA tokA = (Except.ok v2, st2, 0) ∧
    getQuoteMediaSid st3 now (.ok (some v3)) =
      (Except.ok v3, { st3 with
        cachedSid := some v3,
        sidExpiration := some (now + 60 * 60 * 1000) }, 1) ∧
    generateDataToolToken st4 now sidA (.ok (some v4)) =
      (Except.ok v4, { st4 with
        cachedDataToolToken := some v4,
        tokenExpiration := some (now + 30 * 60 * 1000) }, 1) ∧
    generateDataToolToken st5 now (.ok (some v5)) (.ok (some v6)) =
      (Except.ok v6, { st5 with
        cachedSid := some v5,
        sidExpiration := some (now + 60 * 60 * 1000),
        cachedDataToolToken := some v6,
        tokenExpiration := some (now + 30 * 60 * 1000) }, 2) := by
  have he1 : e1 ≠ 0 := by omega
  have he2 : e2 ≠ 0 := by omega
  refine ⟨?_, ?_, ?_, ?_, ?_⟩
  · simp [getQuoteMediaSid, sidCacheHit, strTruthy, natTruthy, h11, h12, h13,
      he1, h14]
  · simp [generateDataToolToken, tokenCacheHit, strTruthy, natTruthy, h21,
      h22, h23, he2, h24]
  · simp [getQuoteMediaSid, h31, strTruthy, h32, SID_TTL_MS]
  · simp [generateDataToolToken, h41, getQuoteMediaSid, h42, strTruthy, h43,
      TOKEN_TTL_MS]
  · simp [generateDataToolToken, h51, getQuoteMediaSid, h52, strTruthy, h53,
      h54, SID_TTL_MS, TOKEN_TTL_MS]

/-- Witness for `sessionTokenCache_ttl` at concrete cache states. -/
theorem sessionTokenCache_ttl_witness :
    getQuoteMediaSid ⟨some "S", some 100, none, none⟩ 50 (.fail "boom") =
      (Except.ok "S", ⟨some "S", some 100, none, none⟩, 0) ∧
    generateDataToolToken ⟨none, none, some "T", some 100⟩ 50 (.fail "boom")
        (.fail "boom") =
      (Except.ok "T", ⟨none, none, some "T", some 100⟩, 0) ∧
    getQuoteMediaSid ⟨none, none, none, none⟩ 50 (.ok (some "S2")) =
      (Except.ok "S2", ⟨some "S2", some (50 + 60 * 60 * 1000), none, none⟩, 1) ∧
    generateDataToolToken ⟨some "S", some 100, none, none⟩ 50 (.fail "boom")
        (.ok (some "T2")) =
      (Except.ok "T2",
        ⟨some "S", some 100, some "T2", some (50 + 30 * 60 * 1000)⟩, 1) ∧
    generateDataToolToken ⟨none, none, none, none⟩ 50 (.ok (some "S3"))
        (.ok (some "T3")) =
      (Except.ok "T3",
        ⟨some "S3", some (50 + 60 * 60 * 1000), some "T3",
          some (50 + 30 * 60 * 1000)⟩, 2) :=
  sessionTokenCache_ttl
    ⟨some "S", some 100, none, none⟩ ⟨none, none, some "T", some 100⟩
    ⟨none, none, none, none⟩ ⟨some "S", some 100, none, none⟩
    ⟨none, none, none, none⟩ 50
    (.fail "boom") (.fail "boom") (.fail "boom")
    "S" "T" "S2" "T2" "S3" "T3" 100 100
    rfl (by decide) rfl (by decide) rfl (by decide) rfl (by decide)
    (by decide) (by decide) (by decide) (by decide) (by decide)
    (by decide) (by decide) (by decide) (by decide)

/-- C9 (failing execution): with an empty cache, two concurrent
`getQuoteMediaSid` callers interleaved check–check–store–store both run the
authentication fetch, so two network refreshes happen instead of one shared
single-flight refresh. -/
theorem concurrent_get_duplicate_refresh :
    (runSched 1000 "SID-A" "SID-B" [true, false, true, false]
      ⟨⟨none, none, none, none⟩, .start, .start, 0⟩).fetches = 2 ∧
    (runSched 1000 "SID-A" "SID-B" [true, false, true, false]
      ⟨⟨none, none, none, none⟩, .start, .start, 0⟩).a = .finished "SID-A" ∧
    (runSched 1000 "SID-A" "SID-B" [true, false, true, false]
      ⟨⟨none, none, none, none⟩, .start, .start, 0⟩).b = .finished "SID-B" := by
  decide

/-- C10: `clearCachedSid` clears only the SID and its expiration, leaving
the datatool-token cache untouched; while the token's own expiry has not
passed, a subsequent `generateDataToolToken` still returns the old token
with no refresh (zero network requests, state unchanged). -/
theorem clearCachedSid_frame (st : CacheState) (now : Nat)
    (sidA tokA : FetchOutcome) (v : String) (e : Nat)
    (h1 : st.cachedDataToolToken = some v) (h2 : v ≠ "")
    (h3 : st.tokenExpiration = some e) (h4 : now < e) :
    (clearCachedSid st).cachedDataToolToken = st.cachedDataToolToken ∧
    (clearCachedSid st).tokenExpiration = st.tokenExpiration ∧
    (clearCachedSid st).cachedSid = none ∧
    (clearCachedSid st).sidExpiration = none ∧
    generateDataToolToken (clearCachedSid st) now sidA tokA =
      (Except.ok v, clearCachedSid st, 0) := by
  have he : e ≠ 0 := by omega
  refine ⟨rfl, rfl, rfl, rfl, ?_⟩
  simp [generateDataToolToken, tokenCacheHit, clearCachedSid, strTruthy,
    natTruthy, h1, h2, h3, he, h4]

/-- Witness for `clearCachedSid_frame` at a concrete state. -/
theorem clearCachedSid_frame_witness :
    (clearCachedSid ⟨some "S", some 100, some "T", some 200⟩).cachedDataToolToken
        = some "T" ∧
    (clearCachedSid ⟨some "S", some 100, some "T", some 200⟩).tokenExpiration
        = some 200 ∧
    (clearCachedSid ⟨some "S", some 100, some "T", some 200⟩).cachedSid = none ∧
    (clearCachedSid ⟨some "S", some 100, some "T", some 200⟩).sidExpiration = none ∧
    generateDataToolToken (clearCachedSid ⟨some "S", some 100, some "T", some 200⟩)
        150 (.fail "boom") (.fail "boom") =
      (Except.ok "T", clearCachedSid ⟨some "S", some 100, some "T", some 200⟩, 0) :=
  clearCachedSid_frame ⟨some "S", some 100, some "T", some 200⟩ 150
    (.fail "boom") (.fail "boom") "T" 200 rfl (by decide) rfl (by decide)

end QMAuth

namespace Retry

/-- C4: a `withRetry` call with `maxAttempts = 3` whose every attempt fails
performs exactly 3 attempts, sleeps `attempt * 1000` ms between consecutive
attempts (and not after the last), and on exhaustion its result is the last
classified error as a value — a `Timeout`-classified error whenever every
attempt timed out — rather than an unhandled exception. -/
theorem withRetry_exhaustion {α : Type} (outcome : Nat → Except JsError α)
    (e1 e2 e3 : JsError)
    (h1 : outcome 1 = .error e1) (h2 : outcome 2 = .error e2)
    (h3 : outcome 3 = .error e3) :
    withRetry outcome 3 = (Except.error e3, 3, [1 * 1000, 2 * 1000]) ∧
    (isTimeoutMsg e1.message = true → isTimeoutMsg e2.message = true →
      isTimeoutMsg e3.message = true →
      ∃ e, (withRetry outcome 3).1 = Except.error e ∧
        isTimeoutMsg e.message = true) := by
  have u : ∀ (rem attempt : Nat) (le : Option JsError),
      withRetryGo outcome (rem + 1) attempt le =
        match outcome attempt with
        | Except.ok a => (Except.ok a, 1, [])
        | Except.error e =>
          if rem = 0 then (Except.error e, 1, [])
          else
            let r := withRetryGo outcome rem (attempt + 1) (some e)
            (r.1, r.2.1 + 1, attempt * 1000 :: r.2.2) := fun _ _ _ => rfl
  have hrun : withRetry outcome 3 = (Except.error e3, 3, [1 * 1000, 2 * 1000]) := by
    show withRetryGo outcome 3 1 none = _
    rw [show (3 : Nat) = 2 + 1 from rfl, u, h1]
    norm_num
    rw [show (2 : Nat) = 1 + 1 from rfl, u, h2]
    norm_num
    rw [u, h3]
    norm_num
  exact ⟨hrun, fun _ _ ht3 => ⟨e3, by rw [hrun], ht3⟩⟩

/-- Witness for `withRetry_exhaustion`: an action that times out on every
attempt. -/
theorem withRetry_exhaustion_witness :
    withRetry (fun _ => (Except.error ⟨"Error", "Request timeout"⟩ :
        Except JsError Unit)) 3 =
      (Except.error ⟨"Error", "Request timeout"⟩, 3, [1 * 1000, 2 * 1000]) ∧
    (∃ e, (withRetry (fun _ => (Except.error ⟨"Error", "Request timeout"⟩ :
        Except JsError Unit)) 3).1 = Except.error e ∧
      isTimeoutMsg e.message = true) := by
  have h := withRetry_exhaustion
    (fun _ => (Except.error ⟨"Error", "Request timeout"⟩ : Except JsError Unit))
    ⟨"Error", "Request timeout"⟩ ⟨"Error", "Request timeout"⟩
    ⟨"Error", "Request timeout"⟩ rfl rfl rfl
  exact ⟨h.1, h.2 (by decide) (by decide) (by decide)⟩

end Retry

namespace Probe

/-- C5: the sequential endpoint loop returns the payload of the first
accepted candidate, and no candidate after it is ever issued — the result
and the issued count are independent of everything after the first accepted
candidate, and exactly the candidates up to and including it are issued. -/
theorem probe_first_accepted (pre post : List FetchResult) (b : String)
    (hpre : ∀ o ∈ pre, candidateAccepted o = false)
    (hb : acceptBody b = true) :
    probeGo (pre ++ .resp true b :: post) = (some b, pre.length + 1) ∧
    probeGo (pre ++ .resp true b :: post) = probeGo (pre ++ [.resp true b]) := by
  have main : ∀ (post' : List FetchResult),
      probeGo (pre ++ .resp true b :: post') = (some b, pre.length + 1) := by
    intro post'
    induction pre with
    | nil =>
      simp [probeGo, candidateAccepted, hb]
    | cons o rest ih =>
      have ho : candidateAccepted o = false := hpre o (by simp)
      have ih' := ih (fun x hx => hpre x (by simp [hx]))
      simp [probeGo, ho, ih']
  exact ⟨main post, by rw [main post, main []]⟩

/-- Witness for `probe_first_accepted`: candidate A fails, B succeeds with
a quote-shaped body, C would succeed but is never issued — B's payload is
returned after issuing exactly two candidates. -/
theorem probe_first_accepted_witness :
    (∀ o ∈ [FetchResult.resp false "denied"], candidateAccepted o = false) ∧
    acceptBody "\x7b\"last\":258.06\x7d" = true ∧
    probeGo [FetchResult.resp false "denied",
      FetchResult.resp true "\x7b\"last\":258.06\x7d",
      FetchResult.resp true "\x7b\"last\":1\x7d"] =
      (some "\x7b\"last\":258.06\x7d", 2) := by
  have h := probe_first_accepted [FetchResult.resp false "denied"]
    [FetchResult.resp true "\x7b\"last\":1\x7d"] "\x7b\"last\":258.06\x7d"
    (by decide) (by decide)
  exact ⟨by decide, by decide, h.1⟩

/-- C6 counterexample: the claimed accept predicate disagrees with the
implemented one in both directions — a body containing only the field name
`"quote"` is accepted by the claim but rejected by `acceptBody`, and a body
containing only `"open"` is accepted by `acceptBody` but not by the claim. -/
theorem accept_heuristic_counterexample :
    acceptBody "\x7b\"quote\":[]\x7d" = false ∧
    claimedAccept "\x7b\"quote\":[]\x7d" = true ∧
    acceptBody "\x7b\"open\":1\x7d" = true ∧
    claimedAccept "\x7b\"open\":1\x7d" = false := by
  decide

/-- C6 (amended): the default accept predicate accepts a body iff the body
starts with `'\x7b'` or `'['` and contains at least one of the nine quoted
field-name substrings `"price"`, `"last"`, `"bid"`, `"ask"`, `"volume"`,
`"change"`, `"open"`, `"high"`, `"low"` (quotes included; there is no
separate parses-as-JSON disjunct and no `"quote"` substring). -/
theorem accept_heuristic_amended (s : String) :
    acceptBody s = true ↔
      ((strStartsWith s "\x7b" = true ∨ strStartsWith s "[" = true) ∧
        (strContains s "\"price\"" = true ∨ strContains s "\"last\"" = true ∨
          strContains s "\"bid\"" = true ∨ strContains s "\"ask\"" = true ∨
          strContains s "\"volume\"" = true ∨
          strContains s "\"change\"" = true ∨
          strContains s "\"open\"" = true ∨ strContains s "\"high\"" = true ∨
          strContains s "\"low\"" = true)) := by
  simp only [acceptBody, isMarketData, Bool.and_eq_true, Bool.or_eq_true]
  tauto

end Probe

/-- Index bounds for membership in `List.enumFrom`. -/
theorem mem_enumFrom_bounds {α : Type} {p : Nat × α} :
    ∀ {l : List α} {n : Nat}, p ∈ List.enumFrom n l →
      n ≤ p.1 ∧ p.1 < n + l.length := by
  intro l
  induction l with
  | nil => intro n h; simp [List.enumFrom] at h
  | cons a rest ih =>
    intro n h
    simp only [List.enumFrom, List.mem_cons] at h
    rcases h with h | h
    · subst h; simp
    · have := ih h
      simp only [List.length_cons]
      omega

namespace Halts

/-- The `isToday` flag computed by the cell loop equals the declarative
"some `Halt Date` cell matches today" test, whatever the accumulator. -/
theorem rowScan_isToday (headers : List String) (today : String) :
    ∀ (tds : List Cell) (j : Nat) (acc : String → Option String) (isT : Bool),
      (rowScan headers today tds j acc isT).2 =
        (isT || (List.enumFrom j tds).any fun p =>
          headers.get? p.1 = some "Halt Date" && strTrim p.2.text = today) := by
  intro tds
  induction tds with
  | nil => intro j acc isT; simp [rowScan, List.enumFrom]
  | cons cell rest ih =>
    intro j acc isT
    have hblank : ¬(("" : String) = "Halt Date") := by decide
    cases hh : headers[j]? with
    | none =>
      simp [rowScan, hh, ih, List.enumFrom]
    | some h =>
      by_cases hE : h = ""
      · subst hE
        simp [rowScan, hh, ih, List.enumFrom, hblank]
      · simp [rowScan, hh, hE, ih, List.enumFrom, Bool.or_assoc]

/-- C2: the halt parser retains exactly the data rows with a `"Halt Date"`
cell character-for-character equal to the caller-local zero-padded
`MM/DD/YYYY` today string and a non-empty `"Issue Symbol"` field, mapping
each retained row to its halt record; a missing table or an empty row list
(and hence no matching rows) yields the empty list rather than an error. -/
theorem parse_retains_exactly_today_rows (m1 d y : Nat) (hd : TRow)
    (rows : List TRow) :
    parseNasdaqTable none (todayFormatted m1 d y) = [] ∧
    parseNasdaqTable (some []) (todayFormatted m1 d y) = [] ∧
    parseNasdaqTable (some (hd :: rows)) (todayFormatted m1 d y) =
      rows.filterMap (fun r =>
        if hasTodayHaltDate (hd.ths.map strTrim) (todayFormatted m1 d y) r.tds
            && jsTruthyS (rowField (hd.ths.map strTrim) (todayFormatted m1 d y)
              r "Issue Symbol")
        then some (mkHalt (hd.ths.map strTrim) (todayFormatted m1 d y) r)
        else none) := by
  refine ⟨rfl, rfl, ?_⟩
  simp only [parseNasdaqTable]
  refine List.filterMap_congr ?_
  intro r _
  cases hr : r.tds with
  | nil =>
    simp [hr, hasTodayHaltDate, List.enum, List.enumFrom]
  | cons c cs =>
    simp only [hr, List.isEmpty_cons, Bool.false_eq_true, if_false,
      parseDataRow, rowField, hasTodayHaltDate, List.enum, rowScan_isToday,
      Bool.false_or, hr]

end Halts

namespace Halts

/-- When no remaining column is headed `k`, the cell loop leaves the
`rowData` entry for `k` untouched. -/
theorem rowScan_lookup_skip (headers : List String) (today k : String) :
    ∀ (tds : List Cell) (j : Nat) (acc : String → Option String) (isT : Bool),
      (∀ p ∈ List.enumFrom j tds, headers[p.1]? ≠ some k) →
      (rowScan headers today tds j acc isT).1 k = acc k := by
  intro tds
  induction tds with
  | nil => intro j acc isT _; rfl
  | cons cell rest ih =>
    intro j acc isT hnone
    have hj : headers[j]? ≠ some k :=
      hnone (j, cell) (by simp [List.enumFrom])
    have hrest : ∀ p ∈ List.enumFrom (j + 1) rest, headers[p.1]? ≠ some k :=
      fun p hp => hnone p (by simp [List.enumFrom, hp])
    cases hh : headers[j]? with
    | none =>
      simpa [rowScan, hh] using ih (j + 1) acc isT hrest
    | some h =>
      have hk : ¬(k = h) := fun e => hj (by rw [hh, e])
      by_cases hE : h = ""
      · subst hE
        simpa [rowScan, hh] using ih (j + 1) acc isT hrest
      · have hstep := ih (j + 1)
          (rdUpdate acc h (if j = 5 then reasonValue cell (strTrim cell.text)
            else strTrim cell.text))
          (isT || (h = "Halt Date" && strTrim cell.text = today)) hrest
        simp only [rowScan, List.get?_eq_getElem?, hh, hE, if_false] at hstep ⊢
        rw [hstep, rdUpdate, if_neg hk]

/-- When the column headed `k` is unique and sits at index
`j + pre.length`, the `rowData` entry for `k` is the value written for the
cell at that index: the anchor-extracted reason value at column 5, the
trimmed cell text elsewhere. -/
theorem rowScan_lookup_unique (headers : List String) (today k : String)
    (hk : k ≠ "") :
    ∀ (pre : List Cell) (c : Cell) (post : List Cell) (j : Nat)
      (acc : String → Option String) (isT : Bool),
      headers[j + pre.length]? = some k →
      (∀ p ∈ List.enumFrom j pre, headers[p.1]? ≠ some k) →
      (∀ p ∈ List.enumFrom (j + pre.length + 1) post, headers[p.1]? ≠ some k) →
      (rowScan headers today (pre ++ c :: post) j acc isT).1 k =
        some (if j + pre.length = 5 then reasonValue c (strTrim c.text)
              else strTrim c.text) := by
  intro pre
  induction pre with
  | nil =>
    intro c post j acc isT hhd _ hpost
    simp only [List.length_nil, Nat.add_zero] at hhd hpost ⊢
    have hkc : ¬(k = "") := hk
    simp only [List.nil_append, rowScan, List.get?_eq_getElem?, hhd, if_neg hkc]
    rw [rowScan_lookup_skip headers today k post (j + 1) _ _ hpost,
      rdUpdate, if_pos rfl]
  | cons p0 pre' ih =>
    intro c post j acc isT hhd hpre hpost
    have harr : j + (p0 :: pre').length = (j + 1) + pre'.length := by
      simp only [List.length_cons]
      omega
    rw [harr] at hhd hpost ⊢
    have hj : headers[j]? ≠ some k :=
      hpre (j, p0) (by simp [List.enumFrom])
    have hpre' : ∀ q ∈ List.enumFrom (j + 1) pre', headers[q.1]? ≠ some k :=
      fun q hq => hpre q (by simp [List.enumFrom, hq])
    cases hh : headers[j]? with
    | none =>
      simpa [rowScan, hh] using ih c post (j + 1) acc isT hhd hpre' hpost
    | some h =>
      by_cases hE : h = ""
      · subst hE
        simpa [rowScan, hh] using ih c post (j + 1) acc isT hhd hpre' hpost
      · have hstep := ih c post (j + 1)
          (rdUpdate acc h (if j = 5 then reasonValue p0 (strTrim p0.text)
            else strTrim p0.text))
          (isT || (h = "Halt Date" && strTrim p0.text = today)) hhd hpre' hpost
        simp only [List.cons_append, rowScan, List.get?_eq_getElem?, hh, hE, if_false] at hstep ⊢
        exact hstep

end Halts

namespace Halts

/-- C7 counterexample: in a table whose `"Reason Codes"` column is not at
index 5, a reason cell holding anchors `"Regulatory Concern"` and `"Other"`
yields the raw cell text `"RAW"`, not `"Regulatory Concern, Other"` — the
anchor extraction is keyed to column index 5, not to the header name. -/
theorem reasonCodes_by_header_counterexample :
    parseNasdaqTable (some
      [⟨["Halt Date", "Issue Symbol", "Reason Codes"], []⟩,
       ⟨[], [⟨"10/10/2025", []⟩, ⟨"XYZ", []⟩,
             ⟨"RAW", [some "Regulatory Concern", some "Other"]⟩]⟩])
      "10/10/2025" =
      [⟨"XYZ", "10/10/2025", "N/A", "N/A", "N/A", "RAW", "N/A", "N/A",
        "N/A"⟩] ∧
    ("RAW" : String) ≠ "Regulatory Concern, Other" := by
  exact ⟨by decide, by decide⟩

/-- C7 (amended): the anchor extraction applies to the cell at column
index 5 — which is the `"Reason Codes"` column in the standard NASDAQ
header layout. When `"Reason Codes"` heads column 5 and no other column,
the row's reason-codes value is `reasonValue` of that cell: the `", "`-join
of its non-empty trimmed div-anchor texts, falling back to the raw trimmed
cell text when there are none. -/
theorem reasonCodes_positional (headers : List String) (today : String)
    (ths : List String) (pre : List Cell) (c : Cell) (post : List Cell)
    (hlen : pre.length = 5)
    (hhd : headers[5]? = some "Reason Codes")
    (huniq : ∀ i, headers[i]? = some "Reason Codes" → i = 5) :
    rowField headers today ⟨ths, pre ++ c :: post⟩ "Reason Codes" =
      some (reasonValue c (strTrim c.text)) := by
  have hpre : ∀ p ∈ List.enumFrom 0 pre, headers[p.1]? ≠ some "Reason Codes" := by
    intro p hp hEq
    obtain ⟨_, hb2⟩ := mem_enumFrom_bounds hp
    have h5 := huniq p.1 hEq
    omega
  have hpost : ∀ p ∈ List.enumFrom (0 + pre.length + 1) post,
      headers[p.1]? ≠ some "Reason Codes" := by
    intro p hp hEq
    have hb1 := (mem_enumFrom_bounds hp).1
    have h5 := huniq p.1 hEq
    omega
  have hhd0 : headers[0 + pre.length]? = some "Reason Codes" := by
    simpa [hlen] using hhd
  have hmain := rowScan_lookup_unique headers today "Reason Codes"
    (by decide) pre c post 0 (fun _ => none) false hhd0 hpre hpost
  have h0 : (0 : Nat) + pre.length = 5 := by omega
  show (rowScan headers today (pre ++ c :: post) 0 (fun _ => none) false).1
      "Reason Codes" = _
  rw [hmain]
  simp [h0]

/-- Witness for `reasonCodes_positional`: the standard NASDAQ header layout
with a column-5 reason cell holding two anchors. -/
theorem reasonCodes_positional_witness :
    rowField ["Halt Date", "Halt Time", "Issue Symbol", "Issue Name",
        "Market", "Reason Codes", "Pause Threshold Price", "Resumption Date",
        "Resumption Quote Time", "Resumption Trade Time"] "10/10/2025"
      ⟨[], [⟨"10/10/2025", []⟩, ⟨"07:30:00", []⟩, ⟨"XYZ", []⟩,
            ⟨"Xyz Inc", []⟩, ⟨"NASDAQ", []⟩,
            ⟨"", [some "Regulatory Concern", some "Other"]⟩]⟩
      "Reason Codes" = some "Regulatory Concern, Other" := by
  have huniq : ∀ i, (["Halt Date", "Halt Time", "Issue Symbol", "Issue Name",
      "Market", "Reason Codes", "Pause Threshold Price", "Resumption Date",
      "Resumption Quote Time", "Resumption Trade Time"] :
        List String)[i]? = some "Reason Codes" → i = 5 := by
    intro i hi
    have hlt : i < 10 := by
      by_contra hge
      push_neg at hge
      rw [List.getElem?_eq_none (by simpa using hge)] at hi
      exact absurd hi (by simp)
    interval_cases i <;> revert hi <;> decide
  have h := reasonCodes_positional
    ["Halt Date", "Halt Time", "Issue Symbol", "Issue Name", "Market",
     "Reason Codes", "Pause Threshold Price", "Resumption Date",
     "Resumption Quote Time", "Resumption Trade Time"] "10/10/2025" []
    [⟨"10/10/2025", []⟩, ⟨"07:30:00", []⟩, ⟨"XYZ", []⟩, ⟨"Xyz Inc", []⟩,
     ⟨"NASDAQ", []⟩] ⟨"", [some "Regulatory Concern", some "Other"]⟩ []
    rfl rfl huniq
  exact h.trans (by decide)

end Halts

namespace TMXProxy

/-- C3: on the payload `results.quote = [key.symbol "AAPL",
pricedata.last 258.06, pricedata.change 1.2]` the quote mapping produces
exactly one canonical record with symbol `"AAPL"`, price `258.06`, change
`1.2` and volume `0`; and in general every numeric output field of a stock
whose numeric source fields are all absent defaults to `0` (to `null` for
the optional `eps`/`peRatio`/`pbRatio`) instead of failing. -/
theorem normalizer_defaults (nowIso : String) (s : Stock)
    (h : numericSourcesAbsent s) :
    transformQuotes nowIso
      { results := some { quote := some [{
          key := some { symbol := some "AAPL" },
          pricedata := some { last := some (25806 / 100 : ℚ),
                              change := some (12 / 10 : ℚ) } }] } } =
      [{ symbol := "AAPL", price := 25806 / 100, change := 12 / 10,
         changePercent := 0, tick := 0, openQ := 0, high := 0, low := 0,
         previousClose := 0, bid := 0, ask := 0, bidSize := 0, askSize := 0,
         rawBidSize := 0, rawAskSize := 0, tradevolume := 0, sharevolume := 0,
         volume := 0, vwap := 0, vwapvolume := 0, marketCap := 0, eps := none,
         peRatioVal := none, pbRatioVal := none, week52High := 0,
         week52Low := 0, exchange := "US", exchangeLongName := "US Exchange",
         companyName := "N/A", shortName := "N/A", datatype := "equity",
         symbolString := some "AAPL", lastTradeTime := nowIso,
         entitlement := "RT" }] ∧
    ((mapStock nowIso s).price = 0 ∧ (mapStock nowIso s).change = 0 ∧
     (mapStock nowIso s).changePercent = 0 ∧ (mapStock nowIso s).tick = 0 ∧
     (mapStock nowIso s).openQ = 0 ∧ (mapStock nowIso s).high = 0 ∧
     (mapStock nowIso s).low = 0 ∧ (mapStock nowIso s).previousClose = 0 ∧
     (mapStock nowIso s).bid = 0 ∧ (mapStock nowIso s).ask = 0 ∧
     (mapStock nowIso s).bidSize = 0 ∧ (mapStock nowIso s).askSize = 0 ∧
     (mapStock nowIso s).rawBidSize = 0 ∧ (mapStock nowIso s).rawAskSize = 0 ∧
     (mapStock nowIso s).tradevolume = 0 ∧ (mapStock nowIso s).sharevolume = 0 ∧
     (mapStock nowIso s).volume = 0 ∧ (mapStock nowIso s).vwap = 0 ∧
     (mapStock nowIso s).vwapvolume = 0 ∧ (mapStock nowIso s).marketCap = 0 ∧
     (mapStock nowIso s).eps = none ∧ (mapStock nowIso s).peRatioVal = none ∧
     (mapStock nowIso s).pbRatioVal = none ∧
     (mapStock nowIso s).week52High = 0 ∧ (mapStock nowIso s).week52Low = 0) := by
  obtain ⟨hpd, hfund, hlast, hprice, hchange, hcp, hcpC, hopen, hhigh, hlow,
    hpc, hpC, hbid, hask, hbs, has2, hrbs, hras, htv, hsv, hvol, hvwap, hvv,
    hmc, heps, hpe, hpb, hw52h, hw52l⟩ := h
  refine ⟨?_, ?_⟩
  · simp [transformQuotes, extractMarketStats, mapStock, pdQ, jsOrQ, jsGetQ,
      jsOrS, jsGetS, jsIntOf, ratTrunc,
      show ¬(25806 / 100 : ℚ) = 0 from by norm_num,
      show ¬(12 / 10 : ℚ) = 0 from by norm_num,
      show ¬("AAPL" : String) = "" from by decide,
      show Rat.floor 0 = 0 from by decide]
  simp [mapStock, pdQ, jsOrQ, jsGetQ, jsIntOf, hpd, hfund, hlast,
    hprice, hchange, hcp, hcpC, hopen, hhigh, hlow, hpc, hpC, hbid, hask,
    hbs, has2, hrbs, hras, htv, hsv, hvol, hvwap, hvv, hmc, heps, hpe, hpb,
    hw52h, hw52l, ratTrunc, show Rat.floor 0 = 0 from by decide]

/-- Witness for `normalizer_defaults`: the all-fields-absent stock record. -/
theorem normalizer_defaults_witness :
    numericSourcesAbsent ({} : Stock) ∧
    transformQuotes "2025-10-10T12:00:00.000Z"
      { results := some { quote := some [{
          key := some { symbol := some "AAPL" },
          pricedata := some { last := some (25806 / 100 : ℚ),
                              change := some (12 / 10 : ℚ) } }] } } =
      [{ symbol := "AAPL", price := 25806 / 100, change := 12 / 10,
         changePercent := 0, tick := 0, openQ := 0, high := 0, low := 0,
         previousClose := 0, bid := 0, ask := 0, bidSize := 0, askSize := 0,
         rawBidSize := 0, rawAskSize := 0, tradevolume := 0, sharevolume := 0,
         volume := 0, vwap := 0, vwapvolume := 0, marketCap := 0, eps := none,
         peRatioVal := none, pbRatioVal := none, week52High := 0,
         week52Low := 0, exchange := "US", exchangeLongName := "US Exchange",
         companyName := "N/A", shortName := "N/A", datatype := "equity",
         symbolString := some "AAPL",
         lastTradeTime := "2025-10-10T12:00:00.000Z",
         entitlement := "RT" }] ∧
    (mapStock "2025-10-10T12:00:00.000Z" ({} : Stock)).price = 0 ∧
    (mapStock "2025-10-10T12:00:00.000Z" ({} : Stock)).volume = 0 ∧
    (mapStock "2025-10-10T12:00:00.000Z" ({} : Stock)).eps = none := by
  have habs : numericSourcesAbsent ({} : Stock) :=
    ⟨rfl, rfl, rfl, rfl, rfl, rfl, rfl, rfl, rfl, rfl, rfl, rfl, rfl, rfl,
     rfl, rfl, rfl, rfl, rfl, rfl, rfl, rfl, rfl, rfl, rfl, rfl, rfl, rfl,
     rfl⟩
  have h := normalizer_defaults "2025-10-10T12:00:00.000Z" ({} : Stock) habs
  obtain ⟨h1, hprice, hchange, hcp, htick, hopen, hhigh, hlow, hpc, hbid,
    hask, hbs, has2, hrbs, hras, htv, hsv, hvol, hvwap, hvv, hmc, heps, hpe,
    hpb, hw52h, hw52l⟩ := h
  exact ⟨habs, h1, hprice, hvol, heps⟩

end TMXProxy

namespace TMXProxy

/-- C8 counterexample: a record produced by the HTML-table fallback carries
the provenance flag `source: 'TMX PowerStream'`, not
`source: 'html-table-fallback'`. -/
theorem fallback_source_tag_counterexample :
    parseTMXMarketData (fun _ => none) "2025-10-10T12:00:00.000Z"
        "<tr><td>ABC</td><td>1.5</td><td>0.2</td></tr>" =
      [TmxRecord.quote "ABC" (mkRat 3 2) (mkRat 1 5) "TMX PowerStream"
        "2025-10-10T12:00:00.000Z"] ∧
    (TmxRecord.quote "ABC" (mkRat 3 2) (mkRat 1 5) "TMX PowerStream"
        "2025-10-10T12:00:00.000Z").sourceTag = some "TMX PowerStream" ∧
    ("TMX PowerStream" : String) ≠ "html-table-fallback" := by
  exact ⟨by decide, by decide, by decide⟩

/-- C8 (amended): the quote normalizer is total (it never raises); when the
embedded-pattern step, the embedded-JSON step and the table fallback all
find nothing, it returns exactly the one-element diagnostic placeholder
carrying the raw-body length and the debug note; and every record the
HTML-table fallback produces is tagged `source: 'TMX PowerStream'`
(distinguishing it from vendor-structured data), not
`'html-table-fallback'`. -/
theorem parse_fallback_amended (jp : String → Option JsVal)
    (nowIso s : String)
    (h1 : tryPatterns jp s.toList jsDataPatterns = none)
    (h2 : braceStep jp s.toList = none)
    (h3 : tableQuotes nowIso s.toList = []) :
    parseTMXMarketData jp nowIso s =
      [TmxRecord.debugInfo "DEBUG" 0 0 "TMX PowerStream" nowIso s.length
        "No parseable market data found in HTML response"] ∧
    (∀ (s2 : String), ∀ r ∈ tableQuotes nowIso s2.toList,
      r.sourceTag = some "TMX PowerStream") := by
  constructor
  · have h1' : tryPatterns jp s.data jsDataPatterns = none := h1
    have h2' : braceStep jp s.data = none := h2
    have h3' : tableQuotes nowIso s.data = [] := h3
    simp [parseTMXMarketData, h1', h2', h3']
  · intro s2 r hr
    simp only [tableQuotes, List.mem_filterMap] at hr
    obtain ⟨row, _, hrow⟩ := hr
    split at hrow
    · split at hrow
      · rw [Option.some.injEq] at hrow
        subst hrow
        rfl
      · exact absurd hrow (by simp)
    · exact absurd hrow (by simp)

/-- Witness for `parse_fallback_amended`: unparsable garbage input. -/
theorem parse_fallback_amended_witness :
    tryPatterns (fun _ => none) "hello".toList jsDataPatterns = none ∧
    braceStep (fun _ => none) "hello".toList = none ∧
    tableQuotes "2025-10-10T12:00:00.000Z" "hello".toList = [] ∧
    parseTMXMarketData (fun _ => none) "2025-10-10T12:00:00.000Z" "hello" =
      [TmxRecord.debugInfo "DEBUG" 0 0 "TMX PowerStream"
        "2025-10-10T12:00:00.000Z" 5
        "No parseable market data found in HTML response"] :=
  ⟨rfl, rfl, rfl,
    (parse_fallback_amended (fun _ => none) "2025-10-10T12:00:00.000Z"
      "hello" rfl rfl rfl).1⟩

end TMXProxy
